import Mathlib

/-!
Verification development for the earth-wallpaper repository (Go).

The embedding below follows the current variant of `main.go`: the
staleness-gated fetch loop (`startFetcher`/`doFetch`), the tile downloader
(`downloadImage`), the parallel grid assembly and border composition
(`processWallpaper`), and the publish step.  Machine images are modelled as
rasters over `Nat` coordinates with RGBA pixels; Go's `draw.Draw` with the
`draw.Src` operator and a zero source point is modelled by `drawImage`
including its clipping against the destination rectangle, the destination
bounds and the source bounds.  Go `time.Time` instants are modelled as `Nat`
(0 is the zero instant, so `IsZero` is `= 0` and `After` is `>`); the
calendar fields used by `downloadImage`'s URL formatting are modelled by the
`DateTime` structure (the Go zero time is January 1 of year 1, 00:00:00).
The network, the PNG decoder and the timestamp parser are inbound
dependencies and enter as function parameters.
-/

namespace EarthWallpaper

/-- RGBA pixel, mirroring Go `color.RGBA` (r, g, b, a). `image.NewRGBA`
initialises every pixel to (0,0,0,0); `color.Black` converts to
(0,0,0,255) when drawn into an RGBA raster. -/
abbrev Color := Nat × Nat × Nat × Nat

/-- Pixel value of a freshly allocated RGBA raster (all channels zero). -/
def colorZero : Color := (0, 0, 0, 0)

/-- Go `color.Black` as stored in an RGBA raster. -/
def colorBlack : Color := (0, 0, 0, 255)

/-- A raster with bounds `[0, w) x [0, h)`, mirroring a Go `image.RGBA`
whose bounds start at the origin (as all rasters in this program do:
`image.NewRGBA(image.Rect(0,0,w,h))` and PNG decoding both yield
origin-based bounds). `pix` is total; pixels outside the bounds are never
written by the drawing operations. -/
structure Image where
  w : Nat
  h : Nat
  pix : Nat → Nat → Color

/-- Mirror of `image.NewRGBA(image.Rect(0, 0, w, h))`: all pixels zero. -/
def NewRGBA (w h : Nat) : Image := ⟨w, h, fun _ _ => colorZero⟩

/-- Mirror of `image.Rect(x0, y0, x1, y1)` for the non-negative rectangles
this program uses. -/
structure Rect where
  x0 : Nat
  y0 : Nat
  x1 : Nat
  y1 : Nat

/-- Shallow embedding of Go `draw.Draw(dst, r, src, image.Point{0,0},
draw.Src)`: a pixel `(px, py)` of the destination is overwritten with
`src.pix (px - r.x0) (py - r.y0)` exactly when it lies in `r`, in the
destination bounds, and the corresponding source point lies in the source
bounds (Go's `clip`); otherwise it keeps its old value.  Bounds of the
destination are unchanged. -/
def drawImage (dst : Image) (r : Rect) (src : Image) : Image :=
  { dst with
    pix := fun px py =>
      if r.x0 ≤ px ∧ px < r.x1 ∧ r.y0 ≤ py ∧ py < r.y1 ∧
         px < dst.w ∧ py < dst.h ∧
         px - r.x0 < src.w ∧ py - r.y0 < src.h then
        src.pix (px - r.x0) (py - r.y0)
      else
        dst.pix px py }

/-- Shallow embedding of Go `draw.Draw(dst, dst.Bounds(), image.Uniform{c},
image.Point{}, draw.Src)`: every pixel inside the destination bounds is set
to `c` (the uniform source has unbounded extent, so only the destination
bounds clip). -/
def drawUniform (dst : Image) (c : Color) : Image :=
  { dst with
    pix := fun px py => if px < dst.w ∧ py < dst.h then c else dst.pix px py }

/-- Mirror of `const resolution int = 4`. -/
def resolution : Nat := 4

/-- Mirror of `const tileSize = 550`. -/
def tileSize : Nat := 550

/-- Mirror of `const border = 180`. -/
def border : Nat := 180

/-- Mirror of the Go struct `tileResult` (grid coordinate plus decoded
raster) sent over the results channel. -/
structure tileResult where
  x : Nat
  y : Nat
  img : Image

/-- One iteration of the drawing loop in `processWallpaper`:
`draw.Draw(canvas, image.Rect(res.x*tileSize, res.y*tileSize,
(res.x+1)*tileSize, (res.y+1)*tileSize), res.img, image.Point{0,0},
draw.Src)`. -/
def drawTile (canvas : Image) (res : tileResult) : Image :=
  drawImage canvas
    ⟨res.x * tileSize, res.y * tileSize, (res.x + 1) * tileSize, (res.y + 1) * tileSize⟩
    res.img

/-- The list of grid coordinates dispatched by the double loop
`for i := 0; i < gridSize; i++ { for j := 0; j < gridSize; j++ { ... } }`
in `processWallpaper`. -/
def gridCoords : List (Nat × Nat) :=
  (List.range resolution).flatMap fun i => (List.range resolution).map fun j => (i, j)

/-- The sixteen tile results produced by the dispatched goroutines, one per
grid coordinate: goroutine `(i, j)` sends `tileResult{x: i, y: j, img:
downloadImage(resolution, i, j, t)}`. `fetch` abstracts `downloadImage`
applied to the fixed timestamp of this composition. -/
def fetchResults (fetch : Nat → Nat → Image) : List tileResult :=
  gridCoords.map fun p => ⟨p.1, p.2, fetch p.1 p.2⟩

/-- The drawing loop `for res := range results { draw.Draw(...) }` folded
over the order in which results are consumed from the channel.  The loop
runs until the channel is closed, which happens only after `wg.Wait()`, so
the consumed list always contains all dispatched results. -/
def assembleWith (canvas : Image) (rs : List tileResult) : Image :=
  rs.foldl drawTile canvas

/-- The assembled canvas of `processWallpaper` when the results channel
delivers the tiles in dispatch order: a `gridSize*tileSize` square canvas,
initially all zero, with every result drawn into its cell. -/
def processCanvas (fetch : Nat → Nat → Image) : Image :=
  assembleWith (NewRGBA (resolution * tileSize) (resolution * tileSize)) (fetchResults fetch)

/-- Border composition step of `processWallpaper`: allocate a raster of
size `(srcW + border*2) x (srcH + border*2)`, fill it with black, then draw
the canvas at `image.Rect(b, b, b+srcW, b+srcH)`. -/
def addBorder (canvas : Image) (b : Nat) : Image :=
  drawImage
    (drawUniform (NewRGBA (canvas.w + b * 2) (canvas.h + b * 2)) colorBlack)
    ⟨b, b, b + canvas.w, b + canvas.h⟩
    canvas

/-- The final bordered image produced by `processWallpaper` before saving. -/
def processFinal (fetch : Nat → Nat → Image) : Image :=
  addBorder (processCanvas fetch) border

/-- Membership of a pixel in the destination cell of grid coordinate
`(x, y)`: the rectangle `[x*tileSize, (x+1)*tileSize) x [y*tileSize,
(y+1)*tileSize)`. -/
abbrev inCell (x y px py : Nat) : Prop :=
  x * tileSize ≤ px ∧ px < (x + 1) * tileSize ∧
  y * tileSize ≤ py ∧ py < (y + 1) * tileSize

/-- The full write condition of `drawTile` at a pixel: the pixel lies in
the result's cell, inside the canvas bounds, and maps to a point inside the
source raster's bounds. -/
abbrev tileCond (r : tileResult) (W H px py : Nat) : Prop :=
  r.x * tileSize ≤ px ∧ px < (r.x + 1) * tileSize ∧
  r.y * tileSize ≤ py ∧ py < (r.y + 1) * tileSize ∧
  px < W ∧ py < H ∧
  px - r.x * tileSize < r.img.w ∧ py - r.y * tileSize < r.img.h

/-! ### Staleness gate (startFetcher / doFetch) -/

/-- The compare-and-update gate of `doFetch` on `latestImageTime`,
extracted: `if prev.IsZero() || parsed.After(prev) { latestImageTime =
parsed ... }`.  Timestamps are instants as `Nat` with 0 the Go zero time,
so `IsZero` is `= 0` and `After` is `>`.  Returns whether the claim
succeeded together with the stored timestamp afterwards. -/
def tryClaim (prev parsed : Nat) : Bool × Nat :=
  if prev = 0 ∨ prev < parsed then (true, parsed) else (false, prev)

/-- Runs the gate over a whole sequence of candidate timestamps, returning
the final stored timestamp and the sublist of successfully claimed
candidates. -/
def runGate : Nat → List Nat → Nat × List Nat
  | st, [] => (st, [])
  | st, c :: cs =>
    let r := tryClaim st c
    let rest := runGate r.2 cs
    (rest.1, if r.1 then c :: rest.2 else rest.2)

/-- The shared freshness state: `latestImageTime` (as an instant, 0 when
unset) and `latestImageDate` (the raw display string). -/
structure FetchState where
  time : Nat
  date : String
deriving DecidableEq

/-- Outcome of the publish step inside `processWallpaper`: whether
`os.Create` succeeded and whether `png.Encode` succeeded. -/
structure PubOutcome where
  createOk : Bool
  encodeOk : Bool
deriving DecidableEq

/-- Observable result of one `doFetch` tick: the freshness state
afterwards, the menu title set, whether `processWallpaper` ran, and whether
`setWallpaper` (the wallpaper sink) was invoked. -/
structure DoFetchRes where
  st : FetchState
  title : String
  ranPipeline : Bool
  calledSink : Bool
deriving DecidableEq

/-- Return value of `processWallpaper`'s save step (lines 544-557): if
`os.Create` fails it returns `""`; a `png.Encode` failure is only logged
and the path is still returned. -/
def processReturns (pub : PubOutcome) (path : String) : String :=
  if pub.createOk then path else ""

/-- One tick of `doFetch`.  `parse` abstracts
`time.Parse("2006-01-02 15:04:05", raw)` (`none` on parse error), `meta`
abstracts the `latestImage()` call (`none` on fetch error), `pub` the
publish outcome and `path` the temp-file path.  Mirrors the code: on meta
error set an error title and return; on parse error store the raw string
into `latestImageDate` (leaving `latestImageTime` alone) and return; else
run the gate, and on a successful claim store the parsed time and raw
string, run `processWallpaper`, and call `setWallpaper` iff the returned
path is nonempty. -/
def doFetch (parse : String → Option Nat) (pub : PubOutcome) (path : String)
    (meta : Option String) (s : FetchState) : DoFetchRes :=
  match meta with
  | none => ⟨s, "Date: Error fetching", false, false⟩
  | some raw =>
    match parse raw with
    | none => ⟨⟨s.time, raw⟩, "Date: " ++ raw, false, false⟩
    | some parsed =>
      let claim := tryClaim s.time parsed
      if claim.1 then
        let fullPath := processReturns pub path
        ⟨⟨claim.2, raw⟩, "Date: " ++ raw, true, fullPath != ""⟩
      else
        ⟨s, "Date: " ++ raw, false, false⟩

/-! ### Tile download (downloadImage) -/

/-- Calendar fields of a Go `time.Time` as consumed by `downloadImage`'s
URL formatting.  The Go zero time has year 1, month 1, day 1, 00:00:00. -/
structure DateTime where
  year : Nat
  month : Nat
  day : Nat
  hour : Nat
  minute : Nat
  second : Nat
deriving DecidableEq

/-- Mirror of Go `t.IsZero()` on the calendar fields. -/
def DateTime.isZero (t : DateTime) : Bool :=
  t.year == 1 && t.month == 1 && t.day == 1 &&
  t.hour == 0 && t.minute == 0 && t.second == 0

/-- Mirror of `fmt.Sprintf("%02d", n)` for the field ranges used here. -/
def fmt02 (n : Nat) : String :=
  if n < 10 then "0" ++ toString n else toString n

/-- Mirror of `fmt.Sprintf("%04d", n)` for the field ranges used here. -/
def fmt04 (n : Nat) : String :=
  if n < 10 then "000" ++ toString n
  else if n < 100 then "00" ++ toString n
  else if n < 1000 then "0" ++ toString n
  else toString n

/-- The hard-coded fallback fields substituted by `downloadImage` when it
receives the zero time: year "2026", month "01", day "10", 02:00:00. -/
def fallbackTime : DateTime := ⟨2026, 1, 10, 2, 0, 0⟩

/-- The year/month/day/hour/minute/second strings chosen by
`downloadImage` (lines 379-393): on the zero time the hard-coded fallback
date, otherwise the zero-padded calendar fields of `t`. -/
def urlFields (t : DateTime) : String × String × String × String × String × String :=
  if t.isZero then ("2026", "01", "10", "02", "00", "00")
  else (fmt04 t.year, fmt02 t.month, fmt02 t.day,
        fmt02 t.hour, fmt02 t.minute, fmt02 t.second)

/-- The request URL built by `downloadImage` (lines 395-396). -/
def buildURL (res i j : Nat) (t : DateTime) : String :=
  "https://anzu.shinshu-u.ac.jp/himawari/img/D531106/" ++ toString res ++
    "d/550/" ++ (urlFields t).1 ++ "/" ++ (urlFields t).2.1 ++ "/" ++
    (urlFields t).2.2.1 ++ "/" ++ (urlFields t).2.2.2.1 ++
    (urlFields t).2.2.2.2.1 ++ (urlFields t).2.2.2.2.2 ++ "_" ++
    toString i ++ "_" ++ toString j ++ ".png"

/-- An HTTP response as observed by `downloadImage`: a status code and the
body bytes, with `body = none` modelling an `io.Copy` read error. -/
structure HttpResp where
  status : Nat
  body : Option (List Nat)

/-- Shallow embedding of `downloadImage` (lines 378-423).  `net` abstracts
`http.Get` (`none` is a request error) and `decode` abstracts `png.Decode`
(`none` is a decode error).  Every failure branch returns the blank
placeholder `image.NewRGBA(image.Rect(0, 0, tileSize, tileSize))` instead
of propagating an error. -/
def downloadImage (net : String → Option HttpResp) (decode : List Nat → Option Image)
    (res i j : Nat) (t : DateTime) : Image :=
  match net (buildURL res i j t) with
  | none => NewRGBA tileSize tileSize
  | some resp =>
    if resp.status ≠ 200 then NewRGBA tileSize tileSize
    else
      match resp.body with
      | none => NewRGBA tileSize tileSize
      | some bs =>
        match decode bs with
        | none => NewRGBA tileSize tileSize
        | some img => img

/-! ## Lemmas -/

/-- Folding `max` from a larger seed absorbs a smaller one. -/
lemma foldr_max_seed (l : List Nat) (a b : Nat) (h : b ≤ a) :
    l.foldr max a = max a (l.foldr max b) := by
  induction l with
  | nil => simp only [List.foldr_nil]; omega
  | cons x xs ih => simp only [List.foldr_cons]; rw [ih]; omega

/-- Pixel characterisation of `drawTile`. -/
lemma drawTile_pix (c : Image) (r : tileResult) (px py : Nat) :
    (drawTile c r).pix px py =
      if tileCond r c.w c.h px py then
        r.img.pix (px - r.x * tileSize) (py - r.y * tileSize)
      else c.pix px py := rfl

/-- Drawing a tile does not change the canvas bounds. -/
lemma drawTile_w (c : Image) (r : tileResult) : (drawTile c r).w = c.w := rfl

/-- Drawing a tile does not change the canvas bounds. -/
lemma drawTile_h (c : Image) (r : tileResult) : (drawTile c r).h = c.h := rfl

/-- Assembly does not change the canvas bounds. -/
lemma assembleWith_w (rs : List tileResult) : ∀ c : Image,
    (assembleWith c rs).w = c.w ∧ (assembleWith c rs).h = c.h := by
  induction rs with
  | nil => intro c; exact ⟨rfl, rfl⟩
  | cons r rs ih =>
    intro c
    have := ih (drawTile c r)
    simpa [assembleWith, List.foldl_cons] using this

/-- A pixel that no consumed result writes to keeps its original canvas
value through the whole drawing loop. -/
lemma foldl_pix_not_covered (rs : List tileResult) (px py : Nat) : ∀ c : Image,
    (∀ r ∈ rs, ¬ tileCond r c.w c.h px py) →
    (List.foldl drawTile c rs).pix px py = c.pix px py := by
  induction rs with
  | nil => intro c _; rfl
  | cons r rs ih =>
    intro c h
    have hw : (drawTile c r).w = c.w := rfl
    have hh : (drawTile c r).h = c.h := rfl
    have step : (List.foldl drawTile (drawTile c r) rs).pix px py = (drawTile c r).pix px py := by
      apply ih
      intro r' hr'
      rw [hw, hh]
      exact h r' (List.mem_cons_of_mem r hr')
    have hnr : ¬ tileCond r c.w c.h px py := h r (List.mem_cons_self r rs)
    calc (List.foldl drawTile c (r :: rs)).pix px py
        = (List.foldl drawTile (drawTile c r) rs).pix px py := rfl
      _ = (drawTile c r).pix px py := step
      _ = c.pix px py := by rw [drawTile_pix, if_neg hnr]

/-- When exactly one consumed result writes to a pixel, the drawing loop
leaves that result's raster value there, whatever the consumption order. -/
lemma foldl_pix_covered (rs : List tileResult) (r₀ : tileResult) (px py : Nat) :
    ∀ c : Image, r₀ ∈ rs → tileCond r₀ c.w c.h px py →
    (∀ r ∈ rs, tileCond r c.w c.h px py → r = r₀) →
    (List.foldl drawTile c rs).pix px py =
      r₀.img.pix (px - r₀.x * tileSize) (py - r₀.y * tileSize) := by
  induction rs with
  | nil => intro c hmem; exact absurd hmem (List.not_mem_nil r₀)
  | cons r rs ih =>
    intro c hmem hcov huniq
    have hw : (drawTile c r).w = c.w := rfl
    have hh : (drawTile c r).h = c.h := rfl
    by_cases hr : r₀ ∈ rs
    · have : (List.foldl drawTile (drawTile c r) rs).pix px py =
          r₀.img.pix (px - r₀.x * tileSize) (py - r₀.y * tileSize) := by
        apply ih (drawTile c r) hr
        · rw [hw, hh]; exact hcov
        · intro r' hr' hc'
          exact huniq r' (List.mem_cons_of_mem r hr') (by rw [← hw, ← hh]; exact hc')
      exact this
    · have hre : r = r₀ := by
        rcases List.mem_cons.mp hmem with h | h
        · exact h.symm
        · exact absurd h hr
      subst hre
      have hnone : ∀ r' ∈ rs, ¬ tileCond r' (drawTile c r).w (drawTile c r).h px py := by
        intro r' hr' hc'
        rw [hw, hh] at hc'
        have := huniq r' (List.mem_cons_of_mem r hr') hc'
        exact hr (this ▸ hr')
      have step : (List.foldl drawTile (drawTile c r) rs).pix px py =
          (drawTile c r).pix px py := foldl_pix_not_covered rs px py (drawTile c r) hnone
      calc (List.foldl drawTile c (r :: rs)).pix px py
          = (List.foldl drawTile (drawTile c r) rs).pix px py := rfl
        _ = (drawTile c r).pix px py := step
        _ = r.img.pix (px - r.x * tileSize) (py - r.y * tileSize) := by
            rw [drawTile_pix, if_pos hcov]

/-- Membership in the dispatched coordinate grid. -/
lemma mem_gridCoords (i j : Nat) : (i, j) ∈ gridCoords ↔ i < 4 ∧ j < 4 := by
  unfold gridCoords resolution
  simp only [List.mem_flatMap, List.mem_map, List.mem_range, Prod.mk.injEq]
  constructor
  · rintro ⟨a, ha, b, hb, hi, hj⟩
    exact ⟨hi ▸ ha, hj ▸ hb⟩
  · rintro ⟨hi, hj⟩
    exact ⟨i, hi, j, hj, rfl, rfl⟩

/-- Every element of the fetched result list is the fetch of its own
coordinate. -/
lemma mem_fetchResults (fetch : Nat → Nat → Image) (r : tileResult) :
    r ∈ fetchResults fetch ↔ (r.x, r.y) ∈ gridCoords ∧ r = ⟨r.x, r.y, fetch r.x r.y⟩ := by
  unfold fetchResults
  simp only [List.mem_map]
  constructor
  · rintro ⟨p, hp, rfl⟩
    exact ⟨hp, rfl⟩
  · rintro ⟨hp, hr⟩
    exact ⟨(r.x, r.y), hp, hr.symm⟩

/-- A tile-write condition pins the grid coordinate of the writer to the
pixel's cell. -/
lemma tileCond_coord (r : tileResult) (W H px py : Nat)
    (h : tileCond r W H px py) : r.x = px / tileSize ∧ r.y = py / tileSize := by
  obtain ⟨h1, h2, h3, h4, -, -, -, -⟩ := h
  have e1 := Nat.div_add_mod px tileSize
  have e2 := Nat.div_add_mod py tileSize
  have m1 : px % tileSize < tileSize := Nat.mod_lt _ (by norm_num [tileSize])
  have m2 : py % tileSize < tileSize := Nat.mod_lt _ (by norm_num [tileSize])
  unfold tileSize at *
  omega

/-- Pixel characterisation of `drawImage`. -/
lemma drawImage_pix (dst : Image) (r : Rect) (src : Image) (px py : Nat) :
    (drawImage dst r src).pix px py =
      if r.x0 ≤ px ∧ px < r.x1 ∧ r.y0 ≤ py ∧ py < r.y1 ∧
         px < dst.w ∧ py < dst.h ∧ px - r.x0 < src.w ∧ py - r.y0 < src.h then
        src.pix (px - r.x0) (py - r.y0)
      else dst.pix px py := rfl

/-- Pixel characterisation of `drawUniform`. -/
lemma drawUniform_pix (dst : Image) (c : Color) (px py : Nat) :
    (drawUniform dst c).pix px py =
      if px < dst.w ∧ py < dst.h then c else dst.pix px py := rfl

/-- After running the gate, the stored timestamp is the maximum of the
initial value and the successfully claimed candidates. -/
lemma runGate_fst (cs : List Nat) : ∀ st : Nat,
    (runGate st cs).1 = (runGate st cs).2.foldr max st := by
  induction cs with
  | nil => intro st; rfl
  | cons c cs ih =>
    intro st
    by_cases h : st = 0 ∨ st < c
    · have hcl : tryClaim st c = (true, c) := by simp [tryClaim, h]
      have hle : st ≤ c := by omega
      simp only [runGate, hcl, if_true, List.foldr_cons]
      rw [ih c, foldr_max_seed _ c st hle]
    · have hcl : tryClaim st c = (false, st) := by simp [tryClaim, h]
      simp only [runGate, hcl]
      exact ih st

end EarthWallpaper

namespace EarthWallpaper

/-! ## Claim theorems -/

/-- C1: the staleness gate claims a candidate, updating the stored
timestamp to it, iff the stored timestamp is unset (zero) or the candidate
is strictly later; otherwise it fails and the stored timestamp is
unchanged; consequently, over any sequence of candidates starting from the
unset state, the stored timestamp is exactly the maximum of the
successfully claimed values. -/
theorem tryClaim_gate_spec (prev cand : Nat) (cs : List Nat) :
    ((tryClaim prev cand).1 = true ↔ (prev = 0 ∨ prev < cand)) ∧
    ((tryClaim prev cand).2 = if (tryClaim prev cand).1 then cand else prev) ∧
    ((runGate 0 cs).1 = (runGate 0 cs).2.foldr max 0) := by
  refine ⟨?_, ?_, runGate_fst cs 0⟩
  · unfold tryClaim
    by_cases h : prev = 0 ∨ prev < cand <;> simp [h]
  · unfold tryClaim
    by_cases h : prev = 0 ∨ prev < cand <;> simp [h]

/-- Concrete fetch function used by witnesses: a 550x550 tile whose pixels
record the coordinate and position. -/
def wfetch : Nat → Nat → Image :=
  fun i j => ⟨tileSize, tileSize, fun u v => (i, j, u, v)⟩

/-- C2: the grid assembly dispatches exactly 16 fetches, one per distinct
coordinate in `[0,4) x [0,4)`, and (all results being consumed before the
loop ends) each tile lands at pixel offset `(i*550, j*550)`: when every
fetched raster is 550x550, every pixel of the 2200x2200 canvas holds the
value of the tile of its own cell, so no cell is left unpopulated. -/
theorem processWallpaper_grid_spec (fetch : Nat → Nat → Image) (px py : Nat)
    (hdim : ∀ i j, (fetch i j).w = tileSize ∧ (fetch i j).h = tileSize)
    (hpx : px < resolution * tileSize) (hpy : py < resolution * tileSize) :
    gridCoords.length = 16 ∧ gridCoords.Nodup ∧
    (∀ i j : Nat, ((i, j) ∈ gridCoords ↔ i < 4 ∧ j < 4)) ∧
    resolution * tileSize = 2200 ∧
    (processCanvas fetch).pix px py =
      (fetch (px / tileSize) (py / tileSize)).pix (px % tileSize) (py % tileSize) := by
  refine ⟨by decide, by decide, mem_gridCoords, by norm_num [resolution, tileSize], ?_⟩
  simp only [resolution, tileSize] at hpx hpy
  have hq1lt : px / tileSize < 4 := by simp only [tileSize]; omega
  have hq2lt : py / tileSize < 4 := by simp only [tileSize]; omega
  have hmem : (⟨px / tileSize, py / tileSize, fetch (px / tileSize) (py / tileSize)⟩ :
      tileResult) ∈ fetchResults fetch := by
    rw [mem_fetchResults]
    exact ⟨(mem_gridCoords _ _).mpr ⟨hq1lt, hq2lt⟩, rfl⟩
  have hcov : tileCond
      (⟨px / tileSize, py / tileSize, fetch (px / tileSize) (py / tileSize)⟩ : tileResult)
      (NewRGBA (resolution * tileSize) (resolution * tileSize)).w
      (NewRGBA (resolution * tileSize) (resolution * tileSize)).h px py := by
    have hw := (hdim (px / tileSize) (py / tileSize)).1
    have hh := (hdim (px / tileSize) (py / tileSize)).2
    simp only [tileSize] at hw hh
    refine ⟨?_, ?_, ?_, ?_, ?_, ?_, ?_, ?_⟩ <;>
      simp only [NewRGBA, resolution, tileSize] <;> omega
  have huniq : ∀ r ∈ fetchResults fetch,
      tileCond r (NewRGBA (resolution * tileSize) (resolution * tileSize)).w
        (NewRGBA (resolution * tileSize) (resolution * tileSize)).h px py →
      r = ⟨px / tileSize, py / tileSize, fetch (px / tileSize) (py / tileSize)⟩ := by
    intro r hr hc
    obtain ⟨-, hre⟩ := (mem_fetchResults fetch r).mp hr
    obtain ⟨hx, hy⟩ := tileCond_coord r _ _ px py hc
    rw [hre]
    rw [hx, hy]
  have hmain := foldl_pix_covered (fetchResults fetch)
    ⟨px / tileSize, py / tileSize, fetch (px / tileSize) (py / tileSize)⟩ px py
    (NewRGBA (resolution * tileSize) (resolution * tileSize)) hmem hcov huniq
  have s1 : px - px / tileSize * tileSize = px % tileSize := by
    simp only [tileSize]; omega
  have s2 : py - py / tileSize * tileSize = py % tileSize := by
    simp only [tileSize]; omega
  show (assembleWith _ (fetchResults fetch)).pix px py = _
  rw [assembleWith, hmain, s1, s2]

/-- C4: the border step yields an image of exactly `(w + 2b) x (h + 2b)`
pixels; every pixel outside the centered `[b, b+w) x [b, b+h)` rectangle is
black and every pixel inside it is the corresponding canvas pixel,
unscaled.  With the program's canvas (`4*550` square) and `b = 180` the
final image is 2560x2560. -/
theorem addBorder_spec (canvas : Image) (b px py : Nat)
    (hpx : px < canvas.w + b * 2) (hpy : py < canvas.h + b * 2) :
    (addBorder canvas b).w = canvas.w + b * 2 ∧
    (addBorder canvas b).h = canvas.h + b * 2 ∧
    ((addBorder canvas b).pix px py =
      if b ≤ px ∧ px < b + canvas.w ∧ b ≤ py ∧ py < b + canvas.h then
        canvas.pix (px - b) (py - b)
      else colorBlack) ∧
    (∀ fetch : Nat → Nat → Image,
      (processFinal fetch).w = 2560 ∧ (processFinal fetch).h = 2560) := by
  refine ⟨rfl, rfl, ?_, ?_⟩
  · rw [addBorder, drawImage_pix]
    by_cases hin : b ≤ px ∧ px < b + canvas.w ∧ b ≤ py ∧ py < b + canvas.h
    · rw [if_pos hin]
      rw [if_pos]
      show (⟨b, b, b + canvas.w, b + canvas.h⟩ : Rect).x0 ≤ px ∧ _
      constructor
      · exact hin.1
      refine ⟨hin.2.1, hin.2.2.1, hin.2.2.2, ?_, ?_, ?_, ?_⟩ <;>
        simp only [drawUniform, NewRGBA] <;> omega
    · rw [if_neg hin, if_neg, drawUniform_pix, if_pos]
      · show px < (NewRGBA (canvas.w + b * 2) (canvas.h + b * 2)).w ∧
          py < (NewRGBA (canvas.w + b * 2) (canvas.h + b * 2)).h
        exact ⟨hpx, hpy⟩
      · intro hc
        exact hin ⟨hc.1, hc.2.1, hc.2.2.1, hc.2.2.2.1⟩
  · intro fetch
    have h1 : (processFinal fetch).w = (processCanvas fetch).w + border * 2 := rfl
    have h2 : (processFinal fetch).h = (processCanvas fetch).h + border * 2 := rfl
    have h3 := assembleWith_w (fetchResults fetch)
      (NewRGBA (resolution * tileSize) (resolution * tileSize))
    have h4 : (processCanvas fetch).w = resolution * tileSize := h3.1
    have h5 : (processCanvas fetch).h = resolution * tileSize := h3.2
    rw [h1, h2, h4, h5]
    norm_num [resolution, tileSize, border]

/-- C4 witness: the theorem applied to a concrete 2x2 canvas, border width
1, and a border pixel. -/
theorem addBorder_spec_witness :
    (0 < (⟨2, 2, fun _ _ => (7, 7, 7, 7)⟩ : Image).w + 1 * 2 ∧
      0 < (⟨2, 2, fun _ _ => (7, 7, 7, 7)⟩ : Image).h + 1 * 2) ∧
    ((addBorder ⟨2, 2, fun _ _ => (7, 7, 7, 7)⟩ 1).w =
        (⟨2, 2, fun _ _ => (7, 7, 7, 7)⟩ : Image).w + 1 * 2 ∧
      (addBorder ⟨2, 2, fun _ _ => (7, 7, 7, 7)⟩ 1).h =
        (⟨2, 2, fun _ _ => (7, 7, 7, 7)⟩ : Image).h + 1 * 2 ∧
      ((addBorder ⟨2, 2, fun _ _ => (7, 7, 7, 7)⟩ 1).pix 0 0 =
        if 1 ≤ 0 ∧ 0 < 1 + (⟨2, 2, fun _ _ => (7, 7, 7, 7)⟩ : Image).w ∧ 1 ≤ 0 ∧
            0 < 1 + (⟨2, 2, fun _ _ => (7, 7, 7, 7)⟩ : Image).h then
          (⟨2, 2, fun _ _ => (7, 7, 7, 7)⟩ : Image).pix (0 - 1) (0 - 1)
        else colorBlack) ∧
      (∀ fetch : Nat → Nat → Image,
        (processFinal fetch).w = 2560 ∧ (processFinal fetch).h = 2560)) :=
  ⟨⟨by decide, by decide⟩,
    addBorder_spec ⟨2, 2, fun _ _ => (7, 7, 7, 7)⟩ 1 0 0 (by decide) (by decide)⟩

/-- C3: consuming the 16 tile results in any order from the channel yields
a pixel-for-pixel identical canvas: placement is keyed only by each
result's coordinate, never by completion order. -/
theorem assemble_perm_invariant (fetch : Nat → Nat → Image) (rs : List tileResult)
    (px py : Nat) (hperm : (fetchResults fetch).Perm rs) :
    (assembleWith (NewRGBA (resolution * tileSize) (resolution * tileSize)) rs).pix px py =
    (assembleWith (NewRGBA (resolution * tileSize) (resolution * tileSize))
      (fetchResults fetch)).pix px py := by
  by_cases hex : ∃ r ∈ fetchResults fetch,
      tileCond r (NewRGBA (resolution * tileSize) (resolution * tileSize)).w
        (NewRGBA (resolution * tileSize) (resolution * tileSize)).h px py
  · obtain ⟨r₀, hr₀, hc₀⟩ := hex
    have huniqF : ∀ r ∈ fetchResults fetch,
        tileCond r (NewRGBA (resolution * tileSize) (resolution * tileSize)).w
          (NewRGBA (resolution * tileSize) (resolution * tileSize)).h px py → r = r₀ := by
      intro r hr hc
      obtain ⟨-, hre⟩ := (mem_fetchResults fetch r).mp hr
      obtain ⟨-, hre₀⟩ := (mem_fetchResults fetch r₀).mp hr₀
      obtain ⟨hx, hy⟩ := tileCond_coord r _ _ px py hc
      obtain ⟨hx₀, hy₀⟩ := tileCond_coord r₀ _ _ px py hc₀
      rw [hre, hre₀, hx, hy, hx₀, hy₀]
    have huniqR : ∀ r ∈ rs,
        tileCond r (NewRGBA (resolution * tileSize) (resolution * tileSize)).w
          (NewRGBA (resolution * tileSize) (resolution * tileSize)).h px py → r = r₀ :=
      fun r hr hc => huniqF r (hperm.mem_iff.mpr hr) hc
    rw [assembleWith, assembleWith,
      foldl_pix_covered rs r₀ px py _ (hperm.subset hr₀) hc₀ huniqR,
      foldl_pix_covered (fetchResults fetch) r₀ px py _ hr₀ hc₀ huniqF]
  · push_neg at hex
    rw [assembleWith, assembleWith,
      foldl_pix_not_covered rs px py _ (fun r hr => hex r (hperm.mem_iff.mpr hr)),
      foldl_pix_not_covered (fetchResults fetch) px py _ hex]

/-- C3 witness: the theorem applied to the reversed consumption order at a
concrete fetch function and pixel. -/
theorem assemble_perm_invariant_witness :
    ((fetchResults wfetch).Perm (fetchResults wfetch).reverse) ∧
    (assembleWith (NewRGBA (resolution * tileSize) (resolution * tileSize))
      (fetchResults wfetch).reverse).pix 600 1200 =
    (assembleWith (NewRGBA (resolution * tileSize) (resolution * tileSize))
      (fetchResults wfetch)).pix 600 1200 :=
  ⟨(List.reverse_perm _).symm,
    assemble_perm_invariant wfetch _ 600 1200 (List.reverse_perm _).symm⟩

/-- C5: `downloadImage` never propagates a failure: whenever the request
errors, the response status is not 200, the body read fails, or the PNG
decode fails, it returns the blank all-zero 550x550 placeholder raster. -/
theorem downloadImage_failure_blank (net : String → Option HttpResp)
    (decode : List Nat → Option Image) (res i j : Nat) (t : DateTime)
    (hfail : net (buildURL res i j t) = none ∨
      ∃ resp, net (buildURL res i j t) = some resp ∧
        (resp.status ≠ 200 ∨ resp.body = none ∨
          ∃ bs, resp.body = some bs ∧ decode bs = none)) :
    downloadImage net decode res i j t = NewRGBA tileSize tileSize ∧
    (NewRGBA tileSize tileSize).w = 550 ∧ (NewRGBA tileSize tileSize).h = 550 ∧
    ∀ u v, (NewRGBA tileSize tileSize).pix u v = (0, 0, 0, 0) := by
  refine ⟨?_, rfl, rfl, fun u v => rfl⟩
  unfold downloadImage
  rcases hfail with h | ⟨resp, hresp, hcase⟩
  · rw [h]
  · rw [hresp]
    rcases hcase with hs | hb | ⟨bs, hbs, hd⟩
    · simp [hs]
    · by_cases h200 : resp.status ≠ 200
      · simp [h200]
      · simp [h200, hb]
    · by_cases h200 : resp.status ≠ 200
      · simp [h200]
      · simp [h200, hbs, hd]

/-- C5 witness: the theorem applied at a network that always errors. -/
theorem downloadImage_failure_blank_witness :
    ((fun _ : String => (none : Option HttpResp))
        (buildURL 4 0 0 ⟨2026, 1, 11, 16, 10, 0⟩) = none ∨
      ∃ resp, (fun _ : String => (none : Option HttpResp))
          (buildURL 4 0 0 ⟨2026, 1, 11, 16, 10, 0⟩) = some resp ∧
        (resp.status ≠ 200 ∨ resp.body = none ∨
          ∃ bs, resp.body = some bs ∧ (fun _ : List Nat => (none : Option Image)) bs = none)) ∧
    (downloadImage (fun _ => none) (fun _ => none) 4 0 0 ⟨2026, 1, 11, 16, 10, 0⟩ =
        NewRGBA tileSize tileSize ∧
      (NewRGBA tileSize tileSize).w = 550 ∧ (NewRGBA tileSize tileSize).h = 550 ∧
      ∀ u v, (NewRGBA tileSize tileSize).pix u v = (0, 0, 0, 0)) :=
  ⟨Or.inl rfl,
    downloadImage_failure_blank (fun _ => none) (fun _ => none) 4 0 0
      ⟨2026, 1, 11, 16, 10, 0⟩ (Or.inl rfl)⟩

/-- C8: on the zero timestamp, `downloadImage` substitutes the hard-coded
fallback date 2026-01-10 02:00:00 into the request URL and otherwise
behaves exactly as it does on that normal timestamp. -/
theorem downloadImage_zero_time_fallback (net : String → Option HttpResp)
    (decode : List Nat → Option Image) (res i j : Nat) (t : DateTime)
    (hz : t.isZero = true) :
    buildURL res i j t = buildURL res i j fallbackTime ∧
    downloadImage net decode res i j t = downloadImage net decode res i j fallbackTime := by
  have hf : urlFields t = ("2026", "01", "10", "02", "00", "00") := by
    simp [urlFields, hz]
  have hf2 : urlFields fallbackTime = ("2026", "01", "10", "02", "00", "00") := by decide
  have hurl : buildURL res i j t = buildURL res i j fallbackTime := by
    unfold buildURL
    rw [hf, hf2]
  refine ⟨hurl, ?_⟩
  unfold downloadImage
  rw [hurl]

/-- C8 witness: the theorem applied at the zero time (year 1, January 1,
00:00:00, the calendar form of Go's zero `time.Time`). -/
theorem downloadImage_zero_time_fallback_witness :
    (⟨1, 1, 1, 0, 0, 0⟩ : DateTime).isZero = true ∧
    (buildURL 4 0 0 ⟨1, 1, 1, 0, 0, 0⟩ = buildURL 4 0 0 fallbackTime ∧
      downloadImage (fun _ => none) (fun _ => none) 4 0 0 ⟨1, 1, 1, 0, 0, 0⟩ =
        downloadImage (fun _ => none) (fun _ => none) 4 0 0 fallbackTime) :=
  ⟨by decide,
    downloadImage_zero_time_fallback (fun _ => none) (fun _ => none) 4 0 0
      ⟨1, 1, 1, 0, 0, 0⟩ (by decide)⟩

/-- C2 witness: the theorem applied at a concrete fetch function and
pixel. -/
theorem processWallpaper_grid_spec_witness :
    ((∀ i j, (wfetch i j).w = tileSize ∧ (wfetch i j).h = tileSize) ∧
      600 < resolution * tileSize ∧ 1200 < resolution * tileSize) ∧
    (gridCoords.length = 16 ∧ gridCoords.Nodup ∧
      (∀ i j : Nat, ((i, j) ∈ gridCoords ↔ i < 4 ∧ j < 4)) ∧
      resolution * tileSize = 2200 ∧
      (processCanvas wfetch).pix 600 1200 =
        (wfetch (600 / tileSize) (1200 / tileSize)).pix (600 % tileSize) (1200 % tileSize)) :=
  ⟨⟨fun _ _ => ⟨rfl, rfl⟩, by decide, by decide⟩,
    processWallpaper_grid_spec wfetch 600 1200 (fun _ _ => ⟨rfl, rfl⟩)
      (by decide) (by decide)⟩

/-- C6 counterexample: with the claim succeeding, file creation succeeding
and the PNG encode failing, `processWallpaper` still returns the path
(lines 551-557 only log the encode error), so `doFetch` invokes
`setWallpaper` — refuting that any persist failure aborts the cycle before
the wallpaper sink. -/
theorem publish_failure_sink_counterexample :
    (doFetch (fun _ => some 5) ⟨true, false⟩ "wall.png"
      (some "2026-01-11 16:10:00") ⟨0, "--"⟩).calledSink = true := by decide

/-- C6 amended: the cycle aborts without invoking the wallpaper sink
exactly when the output file cannot be created; a PNG encode failure is
only logged, the path is still returned, and `setWallpaper` is invoked. -/
theorem publish_failure_sink (parse : String → Option Nat) (pub : PubOutcome)
    (path raw : String) (T : Nat) (s : FetchState)
    (hp : parse raw = some T) (hnew : s.time = 0 ∨ s.time < T) (hpath : path ≠ "") :
    (doFetch parse pub path (some raw) s).calledSink = pub.createOk := by
  have hcl : tryClaim s.time T = (true, T) := by
    unfold tryClaim; rw [if_pos hnew]
  simp only [doFetch, hp, hcl, processReturns]
  rcases pub with ⟨co, eo⟩
  cases co
  · simp
  · simp [bne_iff_ne, hpath]

/-- C6 witness for the amended claim: applied with encode failing but
creation succeeding, the sink is invoked. -/
theorem publish_failure_sink_witness :
    ((fun _ : String => some 5) "r" = some 5 ∧ ((0 : Nat) = 0 ∨ (0 : Nat) < 5) ∧
      ("wall.png" : String) ≠ "") ∧
    (doFetch (fun _ => some 5) ⟨true, false⟩ "wall.png" (some "r") ⟨0, "--"⟩).calledSink =
      (⟨true, false⟩ : PubOutcome).createOk :=
  ⟨⟨rfl, Or.inl rfl, by decide⟩,
    publish_failure_sink (fun _ => some 5) ⟨true, false⟩ "wall.png" "r" 5 ⟨0, "--"⟩
      rfl (Or.inl rfl) (by decide)⟩

/-- C7 counterexample: on a parse failure `doFetch` stores the raw string
into `latestImageDate` (lines 450-457), so the FreshnessState pair does
change — refuting that it is left unchanged. -/
theorem parse_failure_state_counterexample :
    (doFetch (fun _ => none) ⟨true, true⟩ "wall.png" (some "garbled")
      ⟨0, "prev"⟩).st ≠ (⟨0, "prev"⟩ : FetchState) := by decide

/-- C7 amended: on parse failure `doFetch` surfaces the raw string for
display, stores it into `latestImageDate`, leaves `latestImageTime`
unchanged, attempts no claim, and runs no pipeline or publish step. -/
theorem parse_failure_behavior (parse : String → Option Nat) (pub : PubOutcome)
    (path raw : String) (s : FetchState) (hp : parse raw = none) :
    doFetch parse pub path (some raw) s =
      ⟨⟨s.time, raw⟩, "Date: " ++ raw, false, false⟩ := by
  simp [doFetch, hp]

/-- C7 witness for the amended claim. -/
theorem parse_failure_behavior_witness :
    ((fun _ : String => (none : Option Nat)) "garbled" = none) ∧
    doFetch (fun _ => none) ⟨true, true⟩ "wall.png" (some "garbled") ⟨3, "prev"⟩ =
      ⟨⟨3, "garbled"⟩, "Date: " ++ "garbled", false, false⟩ :=
  ⟨rfl, parse_failure_behavior (fun _ => none) ⟨true, true⟩ "wall.png" "garbled"
    ⟨3, "prev"⟩ rfl⟩

/-- C9 counterexample: the metadata string "0001-01-01 00:00:00" parses in
Go to the zero `time.Time` (instant 0 in this model).  Its claim succeeds
(`prev.IsZero()`), the pipeline runs, yet the committed state is still the
zero instant, so a subsequent poll returning the same timestamp claims
again and the pipeline re-runs — refuting that a claimed timestamp is
never retried. -/
theorem claim_commit_no_retry_counterexample :
    (doFetch (fun _ => some 0) ⟨true, true⟩ "wall.png"
      (some "0001-01-01 00:00:00") ⟨0, "--"⟩).ranPipeline = true ∧
    (doFetch (fun _ => some 0) ⟨true, true⟩ "wall.png"
      (some "0001-01-01 00:00:00")
      (doFetch (fun _ => some 0) ⟨true, true⟩ "wall.png"
        (some "0001-01-01 00:00:00") ⟨0, "--"⟩).st).ranPipeline = true := by decide

/-- C9 amended: for a nonzero candidate timestamp, a successful claim
commits FreshnessState to the candidate, the committed state is the same
whatever the pipeline and publish outcome (no later step reverts it), and
a subsequent poll whose string parses to the same timestamp is rejected:
no pipeline run, no sink call, state unchanged. -/
theorem claim_commit_no_retry (parse : String → Option Nat) (pub pub' : PubOutcome)
    (path raw raw' : String) (T : Nat) (s : FetchState)
    (hp : parse raw = some T) (hp' : parse raw' = some T)
    (hnew : s.time = 0 ∨ s.time < T) (hT : 0 < T) :
    (doFetch parse pub path (some raw) s).st = ⟨T, raw⟩ ∧
    (doFetch parse pub' path (some raw) s).st = (doFetch parse pub path (some raw) s).st ∧
    (doFetch parse pub' path (some raw') ⟨T, raw⟩).ranPipeline = false ∧
    (doFetch parse pub' path (some raw') ⟨T, raw⟩).calledSink = false ∧
    (doFetch parse pub' path (some raw') ⟨T, raw⟩).st = ⟨T, raw⟩ := by
  have hcl : tryClaim s.time T = (true, T) := by
    unfold tryClaim; rw [if_pos hnew]
  have hcl2 : tryClaim T T = (false, T) := by
    unfold tryClaim
    rw [if_neg]
    omega
  refine ⟨?_, ?_, ?_, ?_, ?_⟩ <;> simp [doFetch, hp, hp', hcl, hcl2]

/-- C9 witness for the amended claim. -/
theorem claim_commit_no_retry_witness :
    ((fun _ : String => some 5) "r" = some 5 ∧ (fun _ : String => some 5) "r2" = some 5 ∧
      ((0 : Nat) = 0 ∨ (0 : Nat) < 5) ∧ (0 : Nat) < 5) ∧
    ((doFetch (fun _ => some 5) ⟨true, false⟩ "wall.png" (some "r") ⟨0, "--"⟩).st =
        ⟨5, "r"⟩ ∧
      (doFetch (fun _ => some 5) ⟨false, false⟩ "wall.png" (some "r") ⟨0, "--"⟩).st =
        (doFetch (fun _ => some 5) ⟨true, false⟩ "wall.png" (some "r") ⟨0, "--"⟩).st ∧
      (doFetch (fun _ => some 5) ⟨false, false⟩ "wall.png" (some "r2") ⟨5, "r"⟩).ranPipeline =
        false ∧
      (doFetch (fun _ => some 5) ⟨false, false⟩ "wall.png" (some "r2") ⟨5, "r"⟩).calledSink =
        false ∧
      (doFetch (fun _ => some 5) ⟨false, false⟩ "wall.png" (some "r2") ⟨5, "r"⟩).st =
        ⟨5, "r"⟩) :=
  ⟨⟨rfl, rfl, Or.inl rfl, by decide⟩,
    claim_commit_no_retry (fun _ => some 5) ⟨true, false⟩ ⟨false, false⟩ "wall.png"
      "r" "r2" 5 ⟨0, "--"⟩ rfl rfl (Or.inl rfl) (by decide)⟩

/-- C10: a tile draw writes only pixels inside its own cell
`[x*550, (x+1)*550) x [y*550, (y+1)*550)` — regardless of the decoded
raster's dimensions — and the cells of distinct coordinates are disjoint,
so one tile can never overwrite a neighboring cell. -/
theorem drawTile_frame (c : Image) (r r' : tileResult) (px py : Nat) :
    (¬ inCell r.x r.y px py → (drawTile c r).pix px py = c.pix px py) ∧
    ((r.x, r.y) ≠ (r'.x, r'.y) →
      ¬ (inCell r.x r.y px py ∧ inCell r'.x r'.y px py)) := by
  constructor
  · intro hout
    rw [drawTile_pix, if_neg]
    intro hc
    exact hout ⟨hc.1, hc.2.1, hc.2.2.1, hc.2.2.2.1⟩
  · rintro hne ⟨h1, h2⟩
    apply hne
    simp only [inCell, tileSize] at h1 h2
    rw [Prod.mk.injEq]
    omega

/-- C10 witness: the theorem applied at a pixel outside the cell of
coordinate (0,0) and at the pair of distinct coordinates (0,0), (1,0). -/
theorem drawTile_frame_witness :
    (¬ inCell 0 0 600 10) ∧ ((0, 0) ≠ ((1 : Nat), (0 : Nat))) ∧
    ((drawTile ⟨2200, 2200, fun _ _ => (9, 9, 9, 9)⟩ ⟨0, 0, NewRGBA 550 550⟩).pix 600 10 =
      (⟨2200, 2200, fun _ _ => (9, 9, 9, 9)⟩ : Image).pix 600 10) ∧
    ¬ (inCell 0 0 600 10 ∧ inCell 1 0 600 10) :=
  ⟨by decide, by decide,
    (drawTile_frame ⟨2200, 2200, fun _ _ => (9, 9, 9, 9)⟩ ⟨0, 0, NewRGBA 550 550⟩
      ⟨1, 0, NewRGBA 550 550⟩ 600 10).1 (by decide),
    (drawTile_frame ⟨2200, 2200, fun _ _ => (9, 9, 9, 9)⟩ ⟨0, 0, NewRGBA 550 550⟩
      ⟨1, 0, NewRGBA 550 550⟩ 600 10).2 (by decide)⟩

end EarthWallpaper
